import Mathlib

/-!
Shallow embedding of the stock-Pro inventory application's core:
the movement ledger, the balance reducer, the threshold evaluator,
the document issuance flows (GRN, DN, Production, plain stock in/out),
the audit logger and the dashboard aggregation, translated from the
TypeScript source, together with theorems settling the spec claims.

JavaScript conventions carried over explicitly:
  * optional object fields become `Option`;
  * `a || b || 0` on numbers (falsy at 0 and absent) becomes an explicit
    fallback chain over `Option Int`;
  * strict equality between a possibly-absent key and a string id
    (`undefined === s` is false) becomes `Option String = some s`;
  * the keyed realtime store collections, observed through
    `Object.values`, become lists, with a `set` at a freshly generated
    key modelled as an append;
  * `genId()` (timestamp + random suffix) becomes a deterministic
    counter-indexed id supply threaded through the state;
  * the wall clock (`todayISO()` / `new Date().toISOString()`) is passed
    in as explicit string arguments.
-/

namespace StockPro

/-- Movement direction, the `type: 'IN' | 'OUT'` field of the source. -/
inductive MType where
  | IN : MType
  | OUT : MType
deriving DecidableEq, Repr

/-- The `Movement` interface. `quantity` is required by the TypeScript
type but the source guards every read with the `m.quantity || m.qty || 0`
alias chain, so store records lacking either field are representable:
both numeric fields are modelled as `Option Int`. The source field
`type` is renamed `mtype` (Lean keyword). -/
structure Movement where
  id : String
  productId : Option String := none
  fgId : Option String := none
  mtype : MType
  quantity : Option Int := none
  qty : Option Int := none
  date : String := ""
  remark : String := ""
  billId : Option String := none
  productionId : Option String := none
  createdAt : String := ""
  createdBy : String := ""
  batch : Option String := none
  expiry : Option String := none
deriving DecidableEq, Repr

/-- JS truthiness filter on an optional number: `0` and absent are falsy. -/
def truthyInt : Option Int → Option Int
  | some q => if q = 0 then none else some q
  | none => none

/-- The alias chain `m.quantity || m.qty || 0` from the source. -/
def effectiveQty (m : Movement) : Int :=
  match truthyInt m.quantity with
  | some q => q
  | none =>
    match truthyInt m.qty with
    | some q => q
    | none => 0

/-- The class-matching key `isFG ? m.fgId : m.productId` from
`computeBalance`. -/
def movementKey (isFG : Bool) (m : Movement) : Option String :=
  if isFG then m.fgId else m.productId

/-- `computeBalance` from the source, with the component state
`movements` passed explicitly:

`movements.reduce((sum, m) => { const id = isFG ? m.fgId : m.productId;
  if (id === productId) return sum + (m.type === 'IN'
    ? (m.quantity || m.qty || 0) : -(m.quantity || m.qty || 0));
  return sum; }, 0)`. -/
def computeBalance (movements : List Movement) (productId : String)
    (isFG : Bool) : Int :=
  movements.foldl
    (fun sum m =>
      if movementKey isFG m = some productId then
        sum + (if m.mtype = MType.IN then effectiveQty m else -(effectiveQty m))
      else sum)
    0

/-- The signed quantity a single movement carries at aggregation time. -/
def signedQty (m : Movement) : Int :=
  if m.mtype = MType.IN then effectiveQty m else -(effectiveQty m)

/-- The contribution of one movement to the balance of item `i`:
its signed quantity when its class key matches, zero otherwise. -/
def contribution (i : String) (fg : Bool) (m : Movement) : Int :=
  if movementKey fg m = some i then signedQty m else 0

lemma foldl_add_sum {α : Type} (f : α → Int) (l : List α) (a : Int) :
    l.foldl (fun s x => s + f x) a = a + (l.map f).sum := by
  induction l generalizing a with
  | nil => simp
  | cons x xs ih =>
      simp only [List.foldl_cons, List.map_cons, List.sum_cons, ih]
      ring

lemma computeBalance_foldl (ms : List Movement) (i : String) (fg : Bool)
    (a : Int) :
    ms.foldl
        (fun sum m =>
          if movementKey fg m = some i then
            sum + (if m.mtype = MType.IN then effectiveQty m else -(effectiveQty m))
          else sum)
        a
      = a + (ms.map (contribution i fg)).sum := by
  induction ms generalizing a with
  | nil => simp
  | cons m ms ih =>
      have hc : contribution i fg m
          = if movementKey fg m = some i then signedQty m else 0 := rfl
      simp only [List.foldl_cons, List.map_cons, List.sum_cons, hc]
      by_cases h : movementKey fg m = some i
      · simp only [if_pos h, ih, signedQty]
        ring
      · simp only [if_neg h, ih]
        ring

lemma computeBalance_eq_sum (ms : List Movement) (i : String) (fg : Bool) :
    computeBalance ms i fg = (ms.map (contribution i fg)).sum := by
  unfold computeBalance
  rw [computeBalance_foldl]
  ring

lemma sum_contribution_eq_filter (ms : List Movement) (i : String) (fg : Bool) :
    (ms.map (contribution i fg)).sum
      = ((ms.filter (fun m => decide (movementKey fg m = some i))).map signedQty).sum := by
  induction ms with
  | nil => simp
  | cons m ms ih =>
      by_cases h : movementKey fg m = some i
      · simp [contribution, h, ih]
      · simp [contribution, h, ih]

/-- One OUT movement of quantity 5 against raw material `rm1`,
used to show balances are not clamped at zero. -/
def outFiveMove : Movement :=
  { id := "m1", productId := some "rm1", mtype := MType.OUT,
    quantity := some 5 }

/-- C1: `computeBalance(itemId, isFG)` is the signed sum (IN adds, OUT
subtracts the effective quantity) over exactly the movements whose
class-matching key (`productId` when `isFG` is false, `fgId` when true)
equals `itemId`; other movements contribute zero, the empty movement
list yields 0, and the result may be negative (no clamping). -/
theorem computeBalance_signed_filtered_sum :
    (∀ (ms : List Movement) (i : String) (fg : Bool),
        computeBalance ms i fg
          = ((ms.filter (fun m => decide (movementKey fg m = some i))).map
              signedQty).sum)
    ∧ (∀ (i : String) (fg : Bool), computeBalance [] i fg = 0)
    ∧ computeBalance [outFiveMove] "rm1" false < 0 := by
  refine ⟨fun ms i fg => ?_, fun i fg => rfl, by decide⟩
  rw [computeBalance_eq_sum, sum_contribution_eq_filter]

/-- First movement of the C2 witness pair. -/
def permMoveA : Movement :=
  { id := "a", productId := some "rm1", mtype := MType.IN,
    quantity := some 4 }

/-- Second movement of the C2 witness pair. -/
def permMoveB : Movement :=
  { id := "b", productId := some "rm1", mtype := MType.OUT,
    quantity := some 9 }

/-- C2: `computeBalance` is invariant under permutation of the movement
list (the reduction is order-independent) and is a pure function of the
movement list: recomputing it on an unchanged movement set yields the
same balance. -/
theorem computeBalance_perm_invariant :
    (∀ (ms ns : List Movement), ms.Perm ns →
        ∀ (i : String) (fg : Bool), computeBalance ms i fg = computeBalance ns i fg)
    ∧ (∀ (ms : List Movement) (i : String) (fg : Bool),
        computeBalance ms i fg = computeBalance ms i fg) := by
  refine ⟨fun ms ns h i fg => ?_, fun ms i fg => rfl⟩
  rw [computeBalance_eq_sum, computeBalance_eq_sum]
  exact (h.map (contribution i fg)).sum_eq

/-- Witness for C2 at a concrete two-element permutation. -/
theorem computeBalance_perm_invariant_witness :
    computeBalance [permMoveA, permMoveB] "rm1" false
      = computeBalance [permMoveB, permMoveA] "rm1" false :=
  computeBalance_perm_invariant.1 [permMoveA, permMoveB]
    [permMoveB, permMoveA] (List.Perm.swap permMoveB permMoveA [])
    "rm1" false

/-- The `RMProduct` interface (raw-material item). -/
structure RMProduct where
  id : String
  code : String := ""
  name : String := ""
  category : String := ""
  threshold : Int := 0
  barcode : String := ""
  groups : List String := []
  exclusive : Bool := false
  qtyPerFG : Int := 0
deriving DecidableEq, Repr

/-- The `FGProduct` interface (finished-goods item). -/
structure FGProduct where
  id : String
  productcode : String := ""
  barcode : String := ""
  name : String := ""
  volume : String := ""
  group : String := ""
  batch : String := ""
  expiry : String := ""
  threshold : Int := 0
deriving DecidableEq, Repr

/-- The dashboard low-stock predicate for raw materials, the filter body
`p => computeBalance(p.id) <= p.threshold` from `renderDashboard`. -/
def isLowStockRM (ms : List Movement) (p : RMProduct) : Bool :=
  decide (computeBalance ms p.id false ≤ p.threshold)

/-- The dashboard low-stock predicate for finished goods, the filter body
`p => computeBalance(p.id, true) <= p.threshold` from `renderDashboard`. -/
def isLowStockFG (ms : List Movement) (p : FGProduct) : Bool :=
  decide (computeBalance ms p.id true ≤ p.threshold)

/-- `lowStockRM` from `renderDashboard`:
`rmProducts.filter(p => computeBalance(p.id) <= p.threshold)`. -/
def lowStockRM (ms : List Movement) (ps : List RMProduct) : List RMProduct :=
  ps.filter (fun p => isLowStockRM ms p)

/-- `lowStockFG` from `renderDashboard`:
`fgProducts.filter(p => computeBalance(p.id, true) <= p.threshold)`. -/
def lowStockFG (ms : List Movement) (ps : List FGProduct) : List FGProduct :=
  ps.filter (fun p => isLowStockFG ms p)

/-- The threshold-5 raw material of spec scenarios A and B. -/
def scenarioItem : RMProduct := { id := "itm", threshold := 5 }

/-- Scenario A movements: IN 10 then OUT 3 on the scenario item. -/
def scenarioAMoves : List Movement :=
  [{ id := "a1", productId := some "itm", mtype := MType.IN, quantity := some 10 },
   { id := "a2", productId := some "itm", mtype := MType.OUT, quantity := some 3 }]

/-- Scenario B movements: IN 10 then OUT 7 on the scenario item. -/
def scenarioBMoves : List Movement :=
  [{ id := "b1", productId := some "itm", mtype := MType.IN, quantity := some 10 },
   { id := "b2", productId := some "itm", mtype := MType.OUT, quantity := some 7 }]

/-- C3: an item is classified low-stock exactly when its computed balance
is at most its threshold, the boundary being inclusive (balance equal to
threshold is low-stock); scenario B (threshold 5, movements IN 10 and
OUT 7) has balance 3 and is low-stock, scenario A (threshold 5, IN 10
and OUT 3) has balance 7 and is not. -/
theorem isLowStock_iff_balance_le_threshold :
    (∀ (ms : List Movement) (p : RMProduct),
        isLowStockRM ms p = true ↔ computeBalance ms p.id false ≤ p.threshold)
    ∧ (∀ (ms : List Movement) (p : FGProduct),
        isLowStockFG ms p = true ↔ computeBalance ms p.id true ≤ p.threshold)
    ∧ (∀ (ms : List Movement) (p : RMProduct),
        computeBalance ms p.id false = p.threshold → isLowStockRM ms p = true)
    ∧ (computeBalance scenarioBMoves "itm" false = 3
        ∧ isLowStockRM scenarioBMoves scenarioItem = true)
    ∧ (computeBalance scenarioAMoves "itm" false = 7
        ∧ isLowStockRM scenarioAMoves scenarioItem = false) := by
  refine ⟨fun ms p => ?_, fun ms p => ?_, fun ms p h => ?_,
    by decide, by decide⟩
  · simp [isLowStockRM]
  · simp [isLowStockFG]
  · simp [isLowStockRM, h]

/-- Witness for C3's inclusive-boundary implication: a balance exactly
equal to the threshold is classified low-stock. -/
theorem isLowStock_iff_balance_le_threshold_witness :
    isLowStockRM
        [{ id := "w1", productId := some "itm", mtype := MType.IN,
           quantity := some 5 : Movement }] scenarioItem = true :=
  isLowStock_iff_balance_le_threshold.2.2.1
    [{ id := "w1", productId := some "itm", mtype := MType.IN,
       quantity := some 5 : Movement }] scenarioItem (by decide)

/-- A document line item `{ productId, qty, remark }`, the element shape
of `Bill.items` and `DeliveryNote.items`. -/
structure BillItem where
  productId : String
  qty : Int
  remark : String := ""
deriving DecidableEq, Repr

/-- The `Bill` interface (GRN document). -/
structure Bill where
  id : String
  billNo : String := ""
  date : String := ""
  supplierId : String := ""
  supplierName : String := ""
  items : List BillItem := []
  createdAt : String := ""
  createdBy : String := ""
  updatedAt : Option String := none
  updatedBy : Option String := none
deriving DecidableEq, Repr

/-- The `DeliveryNote` interface. The source fields `from` and `to` are
Lean keywords and are renamed `src` and `dest`. -/
structure DeliveryNote where
  id : String
  dnNo : String := ""
  date : String := ""
  src : String := ""
  dest : String := ""
  productionPlan : String := ""
  prodRef : String := ""
  generalRemark : String := ""
  items : List BillItem := []
  createdAt : String := ""
  createdBy : String := ""
deriving DecidableEq, Repr

/-- An `rmLines` entry of the `Production` interface. -/
structure RMLine where
  rmId : String
  req : Int := 0
  dmg : Int := 0
  used : Int := 0
deriving DecidableEq, Repr

/-- The `Production` interface. -/
structure Production where
  id : String
  prodNo : Option String := none
  date : String := ""
  fgId : String := ""
  fgName : Option String := none
  fgQty : Option Int := none
  quantity : Option Int := none
  batch : Option String := none
  expiry : Option String := none
  remark : Option String := none
  rmLines : Option (List RMLine) := none
  createdAt : String := ""
  createdBy : String := ""
deriving DecidableEq, Repr

/-- The `Supplier` interface. -/
structure Supplier where
  id : String
  name : String := ""
  contact : String := ""
  phone : String := ""
  email : String := ""
  createdAt : String := ""
  createdBy : String := ""
  updatedAt : Option String := none
  updatedBy : Option String := none
deriving DecidableEq, Repr

/-- The `Role` union type. -/
inductive Role where
  | admin | power | manager | store | production | viewer | operator
deriving DecidableEq, Repr

/-- The `User` interface. -/
structure User where
  id : String
  username : String := ""
  password : Option String := none
  role : Role := Role.viewer
  permissionLevel : Option String := none
  createdAt : String := ""
deriving DecidableEq, Repr

/-- The `details: any` payloads actually passed to `logAction` across
the modeled flows, as a closed sum. -/
inductive Details where
  | qtyRemark (qty : Int) (remark : String)
  | billPayload (b : Bill)
  | dnPayload (d : DeliveryNote)
  | prodPayload (p : Production)
  | supplierForm (name contact phone email : String)
  | supplierFull (s : Supplier)
  | userForm (username : String) (role : Role)
  | usernameOnly (username : String)
deriving DecidableEq, Repr

/-- The `AuditLog` interface. The source fields `at` and `by` are Lean
keywords and are renamed `atTime` and `byUser`; both naming schemes of
the interface (`at`/`by`/`entityId` and `timestamp`/`username`/
`targetId`) are carried. -/
structure AuditLog where
  id : String
  atTime : Option String := none
  timestamp : Option String := none
  byUser : Option String := none
  username : Option String := none
  action : String
  entityId : Option String := none
  targetId : Option String := none
  details : Details
deriving DecidableEq, Repr

/-- The shared-store collections the client mirrors (each a keyed tree
in the realtime store, observed through `Object.values`), plus the
counter indexing the deterministic model of `genId()`. -/
structure AppState where
  movements : List Movement := []
  bills : List Bill := []
  deliveryNotes : List DeliveryNote := []
  productions : List Production := []
  suppliers : List Supplier := []
  users : List User := []
  auditLogs : List AuditLog := []
  nextId : Nat := 0
deriving DecidableEq, Repr

/-- Deterministic counter-indexed model of `genId()` (in the source a
base-36 timestamp plus random suffix, unique with high probability). -/
def mkId (n : Nat) : String :=
  "id_" ++ Nat.repr n

/-- JS `a || b` on an optional string: absent and empty are falsy. -/
def jsOrStr (a : Option String) (b : String) : String :=
  match a with
  | some s => if s = "" then b else s
  | none => b

/-- `currentUser?.username || 'unknown'` from the source. -/
def actorName (currentUser : Option User) : String :=
  jsOrStr (currentUser.map User.username) "unknown"

/-- `logAction` from the source: generate an id, build the record
`{ id, at, by, action, entityId, details }` and append it to the
`auditLogs` collection. The `at` field carries the current timestamp and
the `by` field the acting user's name (`currentUser?.username ||
'unknown'`). -/
def logAction (st : AppState) (now : String) (currentUser : Option User)
    (action : String) (entityId : String) (details : Details) : AppState :=
  let logId := mkId st.nextId
  { st with
    auditLogs := st.auditLogs ++
      [{ id := logId, atTime := some now,
         byUser := some (actorName currentUser), action := action,
         entityId := some entityId, details := details }],
    nextId := st.nextId + 1 }

/-- The movement record written by the plain RM stock-in/out handlers. -/
def rmStockMovement (k : Nat) (pid : String) (dir : MType) (qty : Int)
    (remark today now creator : String) : Movement :=
  { id := mkId k, productId := some pid, mtype := dir,
    quantity := some qty, date := today, remark := remark,
    createdAt := now, createdBy := creator }

/-- The movement record written by the plain FG stock-in/out handlers. -/
def fgStockMovement (k : Nat) (fid : String) (dir : MType) (qty : Int)
    (remark today now creator : String) : Movement :=
  { id := mkId k, fgId := some fid, mtype := dir,
    quantity := some qty, date := today, remark := remark,
    createdAt := now, createdBy := creator }

/-- `renderRMIn.handleStockIn`: abort when no product is selected or the
quantity is non-positive; otherwise append one IN movement on the
product's `productId` and log `RM_STOCK_IN`. -/
def handleStockInRM (st : AppState) (selectedProduct : Option RMProduct)
    (qty : Int) (remark today now : String) (currentUser : Option User) :
    AppState :=
  match selectedProduct with
  | none => st
  | some p =>
    if qty ≤ 0 then st
    else
      let move := rmStockMovement st.nextId p.id MType.IN qty remark today
        now (actorName currentUser)
      let st1 :=
        { st with
          movements := st.movements ++ [move]
          nextId := st.nextId + 1 }
      logAction st1 now currentUser "RM_STOCK_IN" p.id
        (Details.qtyRemark qty remark)

/-- `renderRMOut.handleStockOut`: abort when no product is selected, the
quantity is non-positive, or the quantity exceeds the cached balance;
otherwise append one OUT movement and log `RM_STOCK_OUT`. -/
def handleStockOutRM (st : AppState) (selectedProduct : Option RMProduct)
    (qty : Int) (remark today now : String) (currentUser : Option User) :
    AppState :=
  match selectedProduct with
  | none => st
  | some p =>
    if qty ≤ 0 then st
    else if qty > computeBalance st.movements p.id false then st
    else
      let move := rmStockMovement st.nextId p.id MType.OUT qty remark today
        now (actorName currentUser)
      let st1 :=
        { st with
          movements := st.movements ++ [move]
          nextId := st.nextId + 1 }
      logAction st1 now currentUser "RM_STOCK_OUT" p.id
        (Details.qtyRemark qty remark)

/-- `renderFGIn.handleStockIn`: as the RM variant, on `fgId`. -/
def handleStockInFG (st : AppState) (selectedProduct : Option FGProduct)
    (qty : Int) (remark today now : String) (currentUser : Option User) :
    AppState :=
  match selectedProduct with
  | none => st
  | some p =>
    if qty ≤ 0 then st
    else
      let move := fgStockMovement st.nextId p.id MType.IN qty remark today
        now (actorName currentUser)
      let st1 :=
        { st with
          movements := st.movements ++ [move]
          nextId := st.nextId + 1 }
      logAction st1 now currentUser "FG_STOCK_IN" p.id
        (Details.qtyRemark qty remark)

/-- `renderFGOut.handleStockOut`: as the RM variant, on `fgId` with the
balance computed with `isFG = true`. -/
def handleStockOutFG (st : AppState) (selectedProduct : Option FGProduct)
    (qty : Int) (remark today now : String) (currentUser : Option User) :
    AppState :=
  match selectedProduct with
  | none => st
  | some p =>
    if qty ≤ 0 then st
    else if qty > computeBalance st.movements p.id true then st
    else
      let move := fgStockMovement st.nextId p.id MType.OUT qty remark today
        now (actorName currentUser)
      let st1 :=
        { st with
          movements := st.movements ++ [move]
          nextId := st.nextId + 1 }
      logAction st1 now currentUser "FG_STOCK_OUT" p.id
        (Details.qtyRemark qty remark)

/-- The `for (const item of items) { const moveId = genId(); await
set(...) }` loops of the GRN and DN handlers: one movement per line,
each under the next counter-indexed id. -/
def genMovements (f : Nat → BillItem → Movement) :
    Nat → List BillItem → List Movement
  | _, [] => []
  | base, it :: rest => f base it :: genMovements f (base + 1) rest

/-- The movement record written per GRN line: IN on the line's RM
`productId`, carrying the line quantity, the GRN date, the remark
`GRN: <billNo>` and the generated bill id as `billId`. -/
def grnMovement (billId billNo date now creator : String) (k : Nat)
    (it : BillItem) : Movement :=
  { id := mkId k, productId := some it.productId, mtype := MType.IN,
    quantity := some it.qty, date := date, remark := "GRN: " ++ billNo,
    billId := some billId, createdAt := now, createdBy := creator }

/-- The `Bill` record written by the GRN handler. -/
def grnBill (st : AppState) (s : Supplier) (billNo date now : String)
    (items : List BillItem) (currentUser : Option User) : Bill :=
  { id := mkId st.nextId, billNo := billNo, date := date,
    supplierId := s.id, supplierName := s.name, items := items,
    createdAt := now, createdBy := actorName currentUser }

/-- `renderGRN.handleSubmit`: abort when no supplier is selected or the
line list is empty; otherwise write one `Bill`, one IN movement per
line, and log `GRN_ADD`. -/
def handleSubmitGRN (st : AppState) (selectedSupplier : Option Supplier)
    (billNo date : String) (items : List BillItem) (now : String)
    (currentUser : Option User) : AppState :=
  match selectedSupplier with
  | none => st
  | some s =>
    if items.isEmpty then st
    else
      let bill := grnBill st s billNo date now items currentUser
      let newMoves := genMovements
        (grnMovement bill.id billNo date now (actorName currentUser))
        (st.nextId + 1) items
      let st1 :=
        { st with
          bills := st.bills ++ [bill]
          movements := st.movements ++ newMoves
          nextId := st.nextId + 1 + items.length }
      logAction st1 now currentUser "GRN_ADD" bill.id
        (Details.billPayload bill)

/-- The movement record written per DN line: OUT on the line's FG item
via `fgId`, carrying the line quantity, the DN date and the remark
`DN: <dnNo>` (no back-reference to the DN is written). -/
def dnMovement (dnNo date now creator : String) (k : Nat)
    (it : BillItem) : Movement :=
  { id := mkId k, fgId := some it.productId, mtype := MType.OUT,
    quantity := some it.qty, date := date, remark := "DN: " ++ dnNo,
    createdAt := now, createdBy := creator }

/-- The per-line insufficient-stock scan of `renderDN.handleSubmit`:
each line's quantity is compared against that item's full balance
computed from the one cached movement list (the loop aborts at the first
failing line; the net state effect equals this `any`). -/
def dnInsufficient (st : AppState) (items : List BillItem) : Bool :=
  items.any (fun it =>
    decide (it.qty > computeBalance st.movements it.productId true))

/-- The `DeliveryNote` record written by the DN handler. -/
def dnRecord (st : AppState) (dnNo date toDest now : String)
    (items : List BillItem) (currentUser : Option User) : DeliveryNote :=
  { id := mkId st.nextId, dnNo := dnNo, date := date,
    src := "Main Warehouse", dest := toDest, productionPlan := "",
    prodRef := "", generalRemark := "", items := items,
    createdAt := now, createdBy := actorName currentUser }

/-- `renderDN.handleSubmit`: return unchanged when the line list is
empty or some line's quantity exceeds that item's cached balance;
otherwise write one `DeliveryNote`, one OUT movement per line, and log
`DN_ADD`. -/
def handleSubmitDN (st : AppState) (dnNo date toDest : String)
    (items : List BillItem) (now : String) (currentUser : Option User) :
    AppState :=
  if items.isEmpty then st
  else if dnInsufficient st items then st
  else
    let dn := dnRecord st dnNo date toDest now items currentUser
    let newMoves := genMovements
      (dnMovement dnNo date now (actorName currentUser))
      (st.nextId + 1) items
    let st1 :=
      { st with
        deliveryNotes := st.deliveryNotes ++ [dn]
        movements := st.movements ++ newMoves
        nextId := st.nextId + 1 + items.length }
    logAction st1 now currentUser "DN_ADD" dn.id (Details.dnPayload dn)

/-- The browser-enforced constraints of the DN form (`required` on the
DN number, date and destination inputs, `required` on each line's FG
select, `required min="1"` on each line's quantity input): the submit
event reaches `handleSubmit` only when every constrained input is
valid. -/
def dnFormValid (dnNo date toDest : String) (items : List BillItem) :
    Bool :=
  decide (dnNo ≠ "") && decide (date ≠ "") && decide (toDest ≠ "")
    && items.all (fun it => decide (it.productId ≠ "") && decide (1 ≤ it.qty))

/-- A DN submission through the form: the handler runs only when the
form's input constraints hold, otherwise the browser blocks the submit
and no state changes. -/
def dnSubmission (st : AppState) (dnNo date toDest : String)
    (items : List BillItem) (now : String) (currentUser : Option User) :
    AppState :=
  if dnFormValid dnNo date toDest items then
    handleSubmitDN st dnNo date toDest items now currentUser
  else st

/-- The `Production` record and the IN movement written by the
production handler. -/
def prodMovement (k : Nat) (fid : String) (qty : Int)
    (batch today now creator : String) : Movement :=
  { id := mkId k, fgId := some fid, mtype := MType.IN,
    quantity := some qty, date := today,
    remark := "Production: " ++ batch, createdAt := now,
    createdBy := creator }

/-- `renderProductionAdd.handleSubmit`: abort when no FG is selected or
the quantity is non-positive; otherwise write one `Production` record,
one IN movement on the FG, and log `PRODUCTION_ADD`. No RM consumption
is modeled. -/
def handleSubmitProduction (st : AppState) (selectedFG : Option FGProduct)
    (qty : Int) (batch expiry today now : String)
    (currentUser : Option User) : AppState :=
  match selectedFG with
  | none => st
  | some fg =>
    if qty ≤ 0 then st
    else
      let prod : Production :=
        { id := mkId st.nextId, fgId := fg.id, quantity := some qty,
          batch := some batch, expiry := some expiry, date := today,
          createdAt := now, createdBy := actorName currentUser }
      let move := prodMovement (st.nextId + 1) fg.id qty batch today now
        (actorName currentUser)
      let st1 :=
        { st with
          productions := st.productions ++ [prod]
          movements := st.movements ++ [move]
          nextId := st.nextId + 2 }
      logAction st1 now currentUser "PRODUCTION_ADD" prod.id
        (Details.prodPayload prod)

/-- The supplier form state `{ name, contact, phone, email }`. -/
structure SupplierForm where
  name : String := ""
  contact : String := ""
  phone : String := ""
  email : String := ""
deriving DecidableEq, Repr

/-- The field merge performed by `update(suppliers/<id>, {...form,
updatedAt, updatedBy})` on the record at the edited key. -/
def applySupplierForm (f : SupplierForm) (now : String)
    (currentUser : Option User) (s : Supplier) : Supplier :=
  { s with
    name := f.name
    contact := f.contact
    phone := f.phone
    email := f.email
    updatedAt := some now
    updatedBy := currentUser.map User.username }

/-- The edit branch of `renderSuppliers.handleSubmit`: merge the form
into the supplier record at the edited key and log `SUPPLIER_EDIT`. -/
def handleSupplierEdit (st : AppState) (editingId : String)
    (f : SupplierForm) (now : String) (currentUser : Option User) :
    AppState :=
  let st1 :=
    { st with
      suppliers := st.suppliers.map (fun s =>
        if s.id = editingId then applySupplierForm f now currentUser s
        else s) }
  logAction st1 now currentUser "SUPPLIER_EDIT" editingId
    (Details.supplierForm f.name f.contact f.phone f.email)

/-- The supplier delete button handler: remove the supplier's key from
the store and log `SUPPLIER_DELETE`. -/
def handleSupplierDelete (st : AppState) (s : Supplier) (now : String)
    (currentUser : Option User) : AppState :=
  let st1 :=
    { st with
      suppliers := st.suppliers.filter (fun t => decide (t.id ≠ s.id)) }
  logAction st1 now currentUser "SUPPLIER_DELETE" s.id
    (Details.supplierFull s)

/-- The user form state `{ username, password, role }`. -/
structure UserForm where
  username : String := ""
  password : String := ""
  role : Role := Role.operator
deriving DecidableEq, Repr

/-- The edit branch of `renderUserManagement.handleSubmit`: merge the
form into the user record at the edited key and log `USER_EDIT`. -/
def handleUserEdit (st : AppState) (editingId : String) (f : UserForm)
    (now : String) (currentUser : Option User) : AppState :=
  let st1 :=
    { st with
      users := st.users.map (fun u =>
        if u.id = editingId then
          { u with
            username := f.username
            password := some f.password
            role := f.role }
        else u) }
  logAction st1 now currentUser "USER_EDIT" editingId
    (Details.userForm f.username f.role)

/-- The user delete button handler: remove the user's key from the
store and log `USER_DELETE`. -/
def handleUserDelete (st : AppState) (u : User) (now : String)
    (currentUser : Option User) : AppState :=
  let st1 :=
    { st with
      users := st.users.filter (fun t => decide (t.id ≠ u.id)) }
  logAction st1 now currentUser "USER_DELETE" u.id
    (Details.usernameOnly u.username)

/-- One element of the dashboard's `chartData`: the summed IN and OUT
quantities of one day of the trailing window. The source formats the
`date` label with `toLocaleDateString` for display; the raw day string
is kept here. -/
structure ChartEntry where
  date : String
  inQty : Int
  outQty : Int
deriving DecidableEq, Repr

/-- `last14Days` from `renderDashboard`: the 14 day strings for today
minus 13 days up to today, oldest first. The calendar arithmetic
`new Date(); d.setDate(d.getDate() - (13 - i))` is abstracted into
`dayStr k`, the ISO date of (today minus `k` days). -/
def last14Days (dayStr : Nat → String) : List String :=
  (List.range 14).map (fun i => dayStr (13 - i))

/-- `chartData` from `renderDashboard`: for each day of the window,
filter the movements dated that day and reduce the IN and the OUT ones
(all movements, RM and FG combined) with `s + (m.quantity || m.qty ||
0)`. -/
def chartData (movements : List Movement) (dayStr : Nat → String) :
    List ChartEntry :=
  (last14Days dayStr).map (fun d =>
    let dayMoves := movements.filter (fun m => decide (m.date = d))
    { date := d
      inQty := (dayMoves.filter (fun m => decide (m.mtype = MType.IN))).foldl
        (fun s m => s + effectiveQty m) 0
      outQty := (dayMoves.filter (fun m => decide (m.mtype = MType.OUT))).foldl
        (fun s m => s + effectiveQty m) 0 })

/-- The summed effective quantities of the movements dated `d` with
direction `t`, the reference value for one chart cell. -/
def dayTotal (movements : List Movement) (t : MType) (d : String) : Int :=
  ((movements.filter (fun m => decide (m.date = d ∧ m.mtype = t))).map
    effectiveQty).sum

lemma filter_date_type (ms : List Movement) (d : String) (t : MType) :
    (ms.filter (fun m => decide (m.date = d))).filter
        (fun m => decide (m.mtype = t))
      = ms.filter (fun m => decide (m.date = d ∧ m.mtype = t)) := by
  induction ms with
  | nil => rfl
  | cons m ms ih =>
      by_cases h1 : m.date = d
      · by_cases h2 : m.mtype = t
        · simp [List.filter_cons, h1, h2, ih]
        · simp [List.filter_cons, h1, h2, ih]
      · simp [List.filter_cons, h1, ih]

lemma chart_fold_eq_dayTotal (ms : List Movement) (d : String) (t : MType) :
    ((ms.filter (fun m => decide (m.date = d))).filter
        (fun m => decide (m.mtype = t))).foldl
      (fun s m => s + effectiveQty m) 0 = dayTotal ms t d := by
  rw [foldl_add_sum, filter_date_type]
  simp [dayTotal]

lemma chartData_eq (ms : List Movement) (dayStr : Nat → String) :
    chartData ms dayStr
      = (List.range 14).map (fun i =>
          { date := dayStr (13 - i)
            inQty := dayTotal ms MType.IN (dayStr (13 - i))
            outQty := dayTotal ms MType.OUT (dayStr (13 - i)) }) := by
  unfold chartData last14Days
  rw [List.map_map]
  congr 1
  funext i
  show ChartEntry.mk _ _ _ = ChartEntry.mk _ _ _
  rw [chart_fold_eq_dayTotal, chart_fold_eq_dayTotal]

/-- C6: over any movement list, the dashboard 14-day series has exactly
one entry per day of the trailing window anchored at the current date
(`dayStr k` = today minus `k` days): entry `i` is the day 13 - `i` days
back, its `in` (resp. `out`) value the sum of effective quantities of
all movements, RM and FG combined, dated that day with direction IN
(resp. OUT); with no movements every day yields the entry with `in` 0
and `out` 0, never a missing entry. -/
theorem chartData_window_complete :
    (∀ (ms : List Movement) (dayStr : Nat → String),
        chartData ms dayStr
          = (List.range 14).map (fun i =>
              { date := dayStr (13 - i)
                inQty := dayTotal ms MType.IN (dayStr (13 - i))
                outQty := dayTotal ms MType.OUT (dayStr (13 - i)) }))
    ∧ (∀ (ms : List Movement) (dayStr : Nat → String),
        (chartData ms dayStr).length = 14)
    ∧ (∀ dayStr : Nat → String,
        chartData [] dayStr
          = (List.range 14).map (fun i =>
              { date := dayStr (13 - i), inQty := 0, outQty := 0 })) := by
  refine ⟨chartData_eq, fun ms dayStr => ?_, fun dayStr => ?_⟩
  · rw [chartData_eq]
    simp
  · rw [chartData_eq]
    congr 1

lemma genMovements_length (f : Nat → BillItem → Movement) :
    ∀ (l : List BillItem) (base : Nat),
      (genMovements f base l).length = l.length := by
  intro l
  induction l with
  | nil => intro base; rfl
  | cons it rest ih => intro base; simp [genMovements, ih]

lemma genMovements_mem (f : Nat → BillItem → Movement) :
    ∀ (l : List BillItem) (base : Nat) (m : Movement),
      m ∈ genMovements f base l → ∃ k it, it ∈ l ∧ base ≤ k ∧ m = f k it := by
  intro l
  induction l with
  | nil =>
      intro base m hm
      simp [genMovements] at hm
  | cons it rest ih =>
      intro base m hm
      rcases List.mem_cons.mp hm with h | h
      · exact ⟨base, it, List.mem_cons_self it rest, le_refl base, h⟩
      · obtain ⟨k, it2, hmem, hk, he⟩ := ih (base + 1) m h
        exact ⟨k, it2, List.mem_cons_of_mem it hmem, by omega, he⟩

lemma genMovements_map {α : Type} (f : Nat → BillItem → Movement)
    (g : Movement → α) (h : BillItem → α)
    (hfg : ∀ k it, g (f k it) = h it) :
    ∀ (l : List BillItem) (base : Nat),
      (genMovements f base l).map g = l.map h := by
  intro l
  induction l with
  | nil => intro base; rfl
  | cons it rest ih => intro base; simp [genMovements, hfg, ih]

/-- C4: submitting a GRN with a selected supplier and a nonempty line
list writes exactly one `Bill` record and exactly one new `Movement`
per line, in line order: each with direction IN, each referencing the
line's RM item through the `productId` field, each carrying the line's
quantity, and each tagged with the generated bill id as `billId`. -/
theorem grn_writes_one_bill_and_in_movements
    (st : AppState) (s : Supplier) (billNo date now : String)
    (items : List BillItem) (u : Option User) (h : items ≠ []) :
    (handleSubmitGRN st (some s) billNo date items now u).bills
        = st.bills ++ [grnBill st s billNo date now items u]
    ∧ (handleSubmitGRN st (some s) billNo date items now u).movements
        = st.movements ++ genMovements
            (grnMovement (mkId st.nextId) billNo date now (actorName u))
            (st.nextId + 1) items
    ∧ (genMovements
          (grnMovement (mkId st.nextId) billNo date now (actorName u))
          (st.nextId + 1) items).length = items.length
    ∧ (genMovements
          (grnMovement (mkId st.nextId) billNo date now (actorName u))
          (st.nextId + 1) items).map
            (fun m => (m.mtype, m.billId, m.productId, m.quantity))
        = items.map (fun it =>
            (MType.IN, some (mkId st.nextId), some it.productId, some it.qty)) := by
  have hne : items.isEmpty = false := by
    cases items with
    | nil => exact absurd rfl h
    | cons a l => rfl
  refine ⟨?_, ?_, genMovements_length _ items _, ?_⟩
  · simp [handleSubmitGRN, hne, logAction]
  · simp [handleSubmitGRN, hne, logAction, grnBill]
  · exact genMovements_map
      (grnMovement (mkId st.nextId) billNo date now (actorName u))
      (fun m => (m.mtype, m.billId, m.productId, m.quantity))
      (fun it => (MType.IN, some (mkId st.nextId), some it.productId,
        some it.qty))
      (fun k it => rfl) items (st.nextId + 1)

/-- The line items of spec scenario C: quantities 4 and 6 for `rmA`. -/
def scenCItems : List BillItem :=
  [{ productId := "rmA", qty := 4 }, { productId := "rmA", qty := 6 }]

/-- The supplier of the C4 witness. -/
def scenCSupplier : Supplier := { id := "sup1", name := "ACME" }

/-- Witness for C4 at spec scenario C: a GRN with two lines of
quantities 4 and 6 for the same RM. -/
theorem grn_writes_one_bill_and_in_movements_witness :
    (handleSubmitGRN ({} : AppState) (some scenCSupplier) "B-1" "2026-01-05"
          scenCItems "t0" none).bills
        = ({} : AppState).bills ++
            [grnBill ({} : AppState) scenCSupplier "B-1" "2026-01-05" "t0"
              scenCItems none]
    ∧ (handleSubmitGRN ({} : AppState) (some scenCSupplier) "B-1" "2026-01-05"
          scenCItems "t0" none).movements
        = ({} : AppState).movements ++ genMovements
            (grnMovement (mkId 0) "B-1" "2026-01-05" "t0" (actorName none)) 1
            scenCItems
    ∧ (genMovements
          (grnMovement (mkId 0) "B-1" "2026-01-05" "t0" (actorName none)) 1
          scenCItems).length = scenCItems.length
    ∧ (genMovements
          (grnMovement (mkId 0) "B-1" "2026-01-05" "t0" (actorName none)) 1
          scenCItems).map
            (fun m => (m.mtype, m.billId, m.productId, m.quantity))
        = scenCItems.map (fun it =>
            (MType.IN, some (mkId 0), some it.productId, some it.qty)) :=
  grn_writes_one_bill_and_in_movements ({} : AppState) scenCSupplier
    "B-1" "2026-01-05" "t0" scenCItems none (by decide)

/-- Append-only shape of an operation on the movement collection: the
movements afterwards are exactly the movements before, unchanged and in
order, followed by zero or more new records, each written under an id
generated at or after the state's current counter position. -/
def movementsAppendOnly (st st2 : AppState) : Prop :=
  ∃ tail, st2.movements = st.movements ++ tail
    ∧ ∀ m ∈ tail, ∃ k, st.nextId ≤ k ∧ m.id = mkId k

lemma movementsAppendOnly_refl (st : AppState) : movementsAppendOnly st st :=
  ⟨[], (List.append_nil _).symm, by intro m hm; simp at hm⟩

lemma movementsAppendOnly_single (st st2 : AppState) (m : Movement) (k : Nat)
    (h : st2.movements = st.movements ++ [m]) (hk : st.nextId ≤ k)
    (hid : m.id = mkId k) : movementsAppendOnly st st2 := by
  refine ⟨[m], h, ?_⟩
  intro x hx
  simp at hx
  subst hx
  exact ⟨k, hk, hid⟩

/-- C8: the movement collection is append-only across every modeled
operation — plain RM/FG stock-in and stock-out, GRN, DN, Production,
supplier edit and delete, user edit and delete: every movement present
before is still present unchanged afterwards, and the only change is
the appending of new records under freshly generated identifiers. -/
theorem movements_are_append_only :
    (∀ (st : AppState) (sel : Option RMProduct) (qty : Int)
        (remark today now : String) (u : Option User),
        movementsAppendOnly st (handleStockInRM st sel qty remark today now u))
    ∧ (∀ (st : AppState) (sel : Option RMProduct) (qty : Int)
        (remark today now : String) (u : Option User),
        movementsAppendOnly st (handleStockOutRM st sel qty remark today now u))
    ∧ (∀ (st : AppState) (sel : Option FGProduct) (qty : Int)
        (remark today now : String) (u : Option User),
        movementsAppendOnly st (handleStockInFG st sel qty remark today now u))
    ∧ (∀ (st : AppState) (sel : Option FGProduct) (qty : Int)
        (remark today now : String) (u : Option User),
        movementsAppendOnly st (handleStockOutFG st sel qty remark today now u))
    ∧ (∀ (st : AppState) (sup : Option Supplier) (billNo date : String)
        (items : List BillItem) (now : String) (u : Option User),
        movementsAppendOnly st (handleSubmitGRN st sup billNo date items now u))
    ∧ (∀ (st : AppState) (dnNo date toDest : String) (items : List BillItem)
        (now : String) (u : Option User),
        movementsAppendOnly st (handleSubmitDN st dnNo date toDest items now u))
    ∧ (∀ (st : AppState) (fg : Option FGProduct) (qty : Int)
        (batch expiry today now : String) (u : Option User),
        movementsAppendOnly st
          (handleSubmitProduction st fg qty batch expiry today now u))
    ∧ (∀ (st : AppState) (eid : String) (f : SupplierForm) (now : String)
        (u : Option User),
        (handleSupplierEdit st eid f now u).movements = st.movements)
    ∧ (∀ (st : AppState) (s : Supplier) (now : String) (u : Option User),
        (handleSupplierDelete st s now u).movements = st.movements)
    ∧ (∀ (st : AppState) (eid : String) (f : UserForm) (now : String)
        (u : Option User),
        (handleUserEdit st eid f now u).movements = st.movements)
    ∧ (∀ (st : AppState) (u2 : User) (now : String) (u : Option User),
        (handleUserDelete st u2 now u).movements = st.movements) := by
  refine ⟨?_, ?_, ?_, ?_, ?_, ?_, ?_,
    fun st eid f now u => rfl, fun st s now u => rfl,
    fun st eid f now u => rfl, fun st u2 now u => rfl⟩
  · intro st sel qty remark today now u
    cases sel with
    | none => exact movementsAppendOnly_refl st
    | some p =>
        by_cases hq : qty ≤ 0
        · simp only [handleStockInRM, if_pos hq]
          exact movementsAppendOnly_refl st
        · refine movementsAppendOnly_single st _
            (rmStockMovement st.nextId p.id MType.IN qty remark today now
              (actorName u)) st.nextId ?_ (le_refl _) rfl
          simp [handleStockInRM, hq, logAction]
  · intro st sel qty remark today now u
    cases sel with
    | none => exact movementsAppendOnly_refl st
    | some p =>
        by_cases hq : qty ≤ 0
        · simp only [handleStockOutRM, if_pos hq]
          exact movementsAppendOnly_refl st
        · by_cases hb : qty > computeBalance st.movements p.id false
          · simp only [handleStockOutRM, if_neg hq, if_pos hb]
            exact movementsAppendOnly_refl st
          · refine movementsAppendOnly_single st _
              (rmStockMovement st.nextId p.id MType.OUT qty remark today now
                (actorName u)) st.nextId ?_ (le_refl _) rfl
            simp [handleStockOutRM, hq, hb, logAction]
  · intro st sel qty remark today now u
    cases sel with
    | none => exact movementsAppendOnly_refl st
    | some p =>
        by_cases hq : qty ≤ 0
        · simp only [handleStockInFG, if_pos hq]
          exact movementsAppendOnly_refl st
        · refine movementsAppendOnly_single st _
            (fgStockMovement st.nextId p.id MType.IN qty remark today now
              (actorName u)) st.nextId ?_ (le_refl _) rfl
          simp [handleStockInFG, hq, logAction]
  · intro st sel qty remark today now u
    cases sel with
    | none => exact movementsAppendOnly_refl st
    | some p =>
        by_cases hq : qty ≤ 0
        · simp only [handleStockOutFG, if_pos hq]
          exact movementsAppendOnly_refl st
        · by_cases hb : qty > computeBalance st.movements p.id true
          · simp only [handleStockOutFG, if_neg hq, if_pos hb]
            exact movementsAppendOnly_refl st
          · refine movementsAppendOnly_single st _
              (fgStockMovement st.nextId p.id MType.OUT qty remark today now
                (actorName u)) st.nextId ?_ (le_refl _) rfl
            simp [handleStockOutFG, hq, hb, logAction]
  · intro st sup billNo date items now u
    cases sup with
    | none => exact movementsAppendOnly_refl st
    | some s =>
        by_cases he : items.isEmpty
        · simp only [handleSubmitGRN, if_pos he]
          exact movementsAppendOnly_refl st
        · refine ⟨genMovements
              (grnMovement (mkId st.nextId) billNo date now (actorName u))
              (st.nextId + 1) items, ?_, ?_⟩
          · simp [handleSubmitGRN, he, logAction, grnBill]
          · intro m hm
            obtain ⟨k, it, hit, hk, he2⟩ :=
              genMovements_mem _ items (st.nextId + 1) m hm
            exact ⟨k, by omega, by rw [he2]; rfl⟩
  · intro st dnNo date toDest items now u
    by_cases he : items.isEmpty
    · simp only [handleSubmitDN, if_pos he]
      exact movementsAppendOnly_refl st
    · by_cases hd : dnInsufficient st items
      · simp only [handleSubmitDN, if_neg he, if_pos hd]
        exact movementsAppendOnly_refl st
      · refine ⟨genMovements
            (dnMovement dnNo date now (actorName u)) (st.nextId + 1) items,
            ?_, ?_⟩
        · simp [handleSubmitDN, he, hd, logAction]
        · intro m hm
          obtain ⟨k, it, hit, hk, he2⟩ :=
            genMovements_mem _ items (st.nextId + 1) m hm
          exact ⟨k, by omega, by rw [he2]; rfl⟩
  · intro st fg qty batch expiry today now u
    cases fg with
    | none => exact movementsAppendOnly_refl st
    | some p =>
        by_cases hq : qty ≤ 0
        · simp only [handleSubmitProduction, if_pos hq]
          exact movementsAppendOnly_refl st
        · refine movementsAppendOnly_single st _
            (prodMovement (st.nextId + 1) p.id qty batch today now
              (actorName u)) (st.nextId + 1) ?_ (by omega) rfl
          simp [handleSubmitProduction, hq, logAction]

/-- Witness for C8 at a concrete stock-in on the empty state. -/
theorem movements_are_append_only_witness :
    movementsAppendOnly ({} : AppState)
      (handleStockInRM ({} : AppState) (some scenarioItem) 3 "r" "d" "t"
        none) :=
  movements_are_append_only.1 ({} : AppState) (some scenarioItem) 3
    "r" "d" "t" none

/-- C7: every `logAction` call appends exactly one record to the
audit-log collection, carrying the generated id, the current timestamp
(source field `at`), the acting user's identity (source field `by`,
`currentUser?.username || 'unknown'`), the action tag, the target
entity id and the details payload; it touches no other collection, and
its result is used only for this effect (fire-and-forget, no value
feeds control flow). -/
theorem logAction_appends_one_record :
    ∀ (st : AppState) (now : String) (u : Option User)
      (action entityId : String) (details : Details),
      (logAction st now u action entityId details).auditLogs
          = st.auditLogs ++
              [{ id := mkId st.nextId
                 atTime := some now
                 timestamp := none
                 byUser := some (actorName u)
                 username := none
                 action := action
                 entityId := some entityId
                 targetId := none
                 details := details }]
      ∧ (logAction st now u action entityId details).movements = st.movements
      ∧ (logAction st now u action entityId details).bills = st.bills
      ∧ (logAction st now u action entityId details).deliveryNotes
          = st.deliveryNotes
      ∧ (logAction st now u action entityId details).productions
          = st.productions
      ∧ (logAction st now u action entityId details).suppliers = st.suppliers
      ∧ (logAction st now u action entityId details).users = st.users :=
  fun _ _ _ _ _ _ => ⟨rfl, rfl, rfl, rfl, rfl, rfl, rfl⟩

/-- C5: a Stock-Out or Delivery-Note submission with a missing
selection, a non-positive quantity, or a quantity exceeding the balance
computed from the cached movement list aborts before any write: the
state is returned unchanged (no movement, no document, no other write).
For the plain stock-out flows all three checks sit in the handler; for
the DN flow the empty-selection and non-positive cases are blocked by
the form's `required` / `min="1"` input constraints (`dnSubmission`)
and the balance check by the handler. -/
theorem validation_aborts_all_writes :
    (∀ (st : AppState) (sel : Option RMProduct) (qty : Int)
        (remark today now : String) (u : Option User),
        (sel = none ∨ qty ≤ 0
            ∨ ∃ p, sel = some p
                ∧ qty > computeBalance st.movements p.id false) →
        handleStockOutRM st sel qty remark today now u = st)
    ∧ (∀ (st : AppState) (sel : Option FGProduct) (qty : Int)
        (remark today now : String) (u : Option User),
        (sel = none ∨ qty ≤ 0
            ∨ ∃ p, sel = some p
                ∧ qty > computeBalance st.movements p.id true) →
        handleStockOutFG st sel qty remark today now u = st)
    ∧ (∀ (st : AppState) (dnNo date toDest : String)
        (items : List BillItem) (now : String) (u : Option User),
        (items = []
            ∨ ∃ it ∈ items, it.productId = "" ∨ it.qty ≤ 0
                ∨ it.qty > computeBalance st.movements it.productId true) →
        dnSubmission st dnNo date toDest items now u = st) := by
  refine ⟨?_, ?_, ?_⟩
  · intro st sel qty remark today now u h
    rcases h with h | h | h
    · subst h; rfl
    · cases sel with
      | none => rfl
      | some p => simp [handleStockOutRM, h]
    · obtain ⟨p, hp, hgt⟩ := h
      subst hp
      by_cases hq : qty ≤ 0
      · simp [handleStockOutRM, hq]
      · simp [handleStockOutRM, hq, hgt]
  · intro st sel qty remark today now u h
    rcases h with h | h | h
    · subst h; rfl
    · cases sel with
      | none => rfl
      | some p => simp [handleStockOutFG, h]
    · obtain ⟨p, hp, hgt⟩ := h
      subst hp
      by_cases hq : qty ≤ 0
      · simp [handleStockOutFG, hq]
      · simp [handleStockOutFG, hq, hgt]
  · intro st dnNo date toDest items now u h
    unfold dnSubmission
    by_cases hv : dnFormValid dnNo date toDest items = true
    · rw [if_pos hv]
      have hall : ∀ it ∈ items, it.productId ≠ "" ∧ 1 ≤ it.qty := by
        unfold dnFormValid at hv
        simp only [Bool.and_eq_true, List.all_eq_true, decide_eq_true_eq]
          at hv
        intro it hit
        exact hv.2 it hit
      rcases h with h | h
      · subst h; rfl
      · obtain ⟨it, hit, hcase⟩ := h
        obtain ⟨hpid, hqty⟩ := hall it hit
        rcases hcase with hc | hc | hc
        · exact absurd hc hpid
        · exact absurd hc (by omega)
        · have hins : dnInsufficient st items = true := by
            unfold dnInsufficient
            rw [List.any_eq_true]
            exact ⟨it, hit, by simpa using hc⟩
          have hne : items.isEmpty = false := by
            cases items with
            | nil => simp at hit
            | cons a l => rfl
          simp [handleSubmitDN, hne, hins]
    · rw [if_neg hv]

/-- The cached state of spec scenario D: one FG with balance 15. -/
def dnScenState : AppState :=
  { movements := [fgStockMovement 0 "fg1" MType.IN 15 "r" "d0" "t0" "sys"],
    nextId := 1 }

/-- The single line of spec scenario D: quantity 20 requested. -/
def dnScenItems : List BillItem := [{ productId := "fg1", qty := 20 }]

/-- Witness for C5 at spec scenario D: a DN requesting 20 against a
cached balance of 15 aborts and writes nothing. -/
theorem validation_aborts_all_writes_witness :
    dnSubmission dnScenState "DN-1" "2026-01-02" "cust" dnScenItems "t1"
        none = dnScenState :=
  validation_aborts_all_writes.2.2 dnScenState "DN-1" "2026-01-02" "cust"
    dnScenItems "t1" none
    (Or.inr ⟨{ productId := "fg1", qty := 20 }, by decide,
      Or.inr (Or.inr (by decide))⟩)

/-- The cached state of the C9 scenario: one FG with balance 15 and
counter 10. -/
def overdrawState : AppState :=
  { movements := [fgStockMovement 9 "fg1" MType.IN 15 "r" "d0" "t0" "sys"],
    nextId := 10 }

/-- The C9 line items: two lines of 10 for the same FG item. -/
def overdrawItems : List BillItem :=
  [{ productId := "fg1", qty := 10 }, { productId := "fg1", qty := 10 }]

/-- C9: the DN insufficient-stock check is per-line, not aggregated:
the handler aborts exactly when some single line's quantity exceeds
that item's full balance computed from the one cached movement list;
when no line does, every line's OUT movement is written — so two lines
of 10 against a balance of 15 pass validation, write both movements,
and drive the balance to -5 with no concurrent writer involved. -/
theorem dn_check_is_per_line :
    (∀ (st : AppState) (dnNo date toDest : String)
        (items : List BillItem) (now : String) (u : Option User),
        (∃ it ∈ items,
            it.qty > computeBalance st.movements it.productId true) →
        handleSubmitDN st dnNo date toDest items now u = st)
    ∧ (∀ (st : AppState) (dnNo date toDest : String)
        (items : List BillItem) (now : String) (u : Option User),
        (∀ it ∈ items,
            it.qty ≤ computeBalance st.movements it.productId true) →
        (handleSubmitDN st dnNo date toDest items now u).movements
          = st.movements ++ genMovements
              (dnMovement dnNo date now (actorName u)) (st.nextId + 1) items)
    ∧ ((handleSubmitDN overdrawState "DN-2" "2026-01-03" "cust"
          overdrawItems "t1" none).movements.length = 3
        ∧ computeBalance
            (handleSubmitDN overdrawState "DN-2" "2026-01-03" "cust"
              overdrawItems "t1" none).movements "fg1" true = -5) := by
  refine ⟨?_, ?_, by decide, by decide⟩
  · intro st dnNo date toDest items now u h
    obtain ⟨it, hit, hgt⟩ := h
    have hins : dnInsufficient st items = true := by
      unfold dnInsufficient
      rw [List.any_eq_true]
      exact ⟨it, hit, by simpa using hgt⟩
    have hne : items.isEmpty = false := by
      cases items with
      | nil => simp at hit
      | cons a l => rfl
    simp [handleSubmitDN, hne, hins]
  · intro st dnNo date toDest items now u h
    by_cases he : items.isEmpty = true
    · have hnil : items = [] := by
        cases items with
        | nil => rfl
        | cons a l => simp at he
      subst hnil
      simp [handleSubmitDN, genMovements]
    · have hins : dnInsufficient st items = false := by
        unfold dnInsufficient
        rw [List.any_eq_false]
        intro it hit
        simp only [decide_eq_true_eq]
        have := h it hit
        omega
      simp [handleSubmitDN, he, hins, logAction]

/-- Witness for C9's two implications at the overdraw scenario and the
single-line rejection. -/
theorem dn_check_is_per_line_witness :
    handleSubmitDN dnScenState "DN-1" "2026-01-02" "cust" dnScenItems
        "t1" none = dnScenState
    ∧ (handleSubmitDN overdrawState "DN-2" "2026-01-03" "cust"
        overdrawItems "t1" none).movements
      = overdrawState.movements ++ genMovements
          (dnMovement "DN-2" "2026-01-03" "t1" (actorName none)) 11
          overdrawItems :=
  ⟨dn_check_is_per_line.1 dnScenState "DN-1" "2026-01-02" "cust"
      dnScenItems "t1" none
      ⟨{ productId := "fg1", qty := 20 }, by decide, by decide⟩,
    dn_check_is_per_line.2.1 overdrawState "DN-2" "2026-01-03" "cust"
      overdrawItems "t1" none (by decide)⟩

lemma dayTotal_append_single (ms : List Movement) (m : Movement)
    (t : MType) (d : String) :
    dayTotal (ms ++ [m]) t d
      = dayTotal ms t d
          + (if m.date = d ∧ m.mtype = t then effectiveQty m else 0) := by
  unfold dayTotal
  rw [List.filter_append, List.map_append, List.sum_append]
  by_cases h : m.date = d ∧ m.mtype = t
  · simp [h]
  · simp [h]

/-- C10: aggregation is total over degenerate movement records via the
quantity-alias fallback: the effective quantity is `quantity` when
non-zero, else `qty` when non-zero, else 0; a movement whose class key
is absent contributes 0 to every balance; and a movement of effective
quantity 0 leaves the 14-day series unchanged. (`computeBalance` and
`chartData` are total functions of their inputs by construction, so no
movement record makes them fail.) -/
theorem degenerate_movements_fall_back :
    (∀ (m : Movement) (q : Int), m.quantity = some q → q ≠ 0 →
        effectiveQty m = q)
    ∧ (∀ (m : Movement) (q : Int),
        (m.quantity = none ∨ m.quantity = some 0) →
        m.qty = some q → q ≠ 0 → effectiveQty m = q)
    ∧ (∀ m : Movement,
        (m.quantity = none ∨ m.quantity = some 0) →
        (m.qty = none ∨ m.qty = some 0) → effectiveQty m = 0)
    ∧ (∀ (ms : List Movement) (m : Movement) (i : String) (fg : Bool),
        movementKey fg m = none →
        computeBalance (ms ++ [m]) i fg = computeBalance ms i fg)
    ∧ (∀ (ms : List Movement) (m : Movement) (dayStr : Nat → String),
        effectiveQty m = 0 →
        chartData (ms ++ [m]) dayStr = chartData ms dayStr) := by
  refine ⟨?_, ?_, ?_, ?_, ?_⟩
  · intro m q hq hne
    simp [effectiveQty, truthyInt, hq, hne]
  · intro m q hq0 hq hne
    rcases hq0 with h0 | h0
    · simp [effectiveQty, truthyInt, h0, hq, hne]
    · simp [effectiveQty, truthyInt, h0, hq, hne]
  · intro m hq0 hq1
    rcases hq0 with h0 | h0
    · rcases hq1 with h1 | h1
      · simp [effectiveQty, truthyInt, h0, h1]
      · simp [effectiveQty, truthyInt, h0, h1]
    · rcases hq1 with h1 | h1
      · simp [effectiveQty, truthyInt, h0, h1]
      · simp [effectiveQty, truthyInt, h0, h1]
  · intro ms m i fg h
    rw [computeBalance_eq_sum, computeBalance_eq_sum, List.map_append,
      List.sum_append]
    simp [contribution, h]
  · intro ms m dayStr h0
    rw [chartData_eq, chartData_eq]
    congr 1
    funext i
    rw [dayTotal_append_single, dayTotal_append_single, h0]
    simp

/-- A record carrying `quantity: 0` but `qty: 7`, as left by the legacy
contexts the alias field exists for. -/
def aliasOnlyMove : Movement :=
  { id := "za", productId := some "rm1", mtype := MType.IN,
    quantity := some 0, qty := some 7 }

/-- Witness for C10: a movement with `quantity` 0 and `qty` 7
contributes 7. -/
theorem degenerate_movements_fall_back_witness :
    effectiveQty aliasOnlyMove = 7 :=
  degenerate_movements_fall_back.2.1 aliasOnlyMove 7 (Or.inr rfl) rfl
    (by decide)

end StockPro
